import Mathlib

/-!
Shallow embedding of the car-listing REST API core (carController.js,
Car.js, auth.js, jwt.js) and proofs about its query-building, pagination,
statistics, lifecycle and authentication contracts.

The document store is modelled as a `List Car`; Mongo query and update
operations become explicit list functions.  JS numbers used for prices and
mileage are modelled as `ℚ`; integral quantities (page, limit, year,
view counter, ids) as `ℕ`.  Timestamps are reduced to a logical
`createdAt : ℕ` used only for sorting; wall-clock time is outside the
model.  Request bodies arrive through the Joi validation middleware, so
controller inputs are the validated value maps.
-/

namespace CarApi

/-- A listing's seller sub-document (Car.js `seller`). -/
structure Seller where
  name : String
  phone : String
  email : Option String
deriving DecidableEq

/-- A persisted listing document (Car.js `carSchema`). -/
structure Car where
  id : Nat
  make : String
  model : String
  year : Nat
  price : ℚ
  mileage : ℚ
  fuelType : String
  transmission : String
  bodyType : String
  color : String
  city : String
  state : String
  seller : Seller
  status : String
  isActive : Bool
  viewCount : Nat
  createdAt : Nat
deriving DecidableEq

/-- The authenticated principal bound to `req.user` by the auth middleware. -/
structure AuthUser where
  id : Nat
  email : String
  username : String
  role : String
  isActive : Bool
deriving DecidableEq

/-- A Joi-validated car request body (`carValidationSchema`): `stripUnknown`
removes every key not in the schema, so the body can never carry
`isActive` or `viewCount`; `status` has a Joi default. -/
structure CarInput where
  make : String
  model : String
  year : Nat
  price : ℚ
  mileage : ℚ
  fuelType : String
  transmission : String
  bodyType : String
  color : String
  city : String
  state : String
  sellerName : String
  sellerPhone : String
  sellerEmail : Option String
  status : String
deriving DecidableEq

/-- The validated query parameters of `GET /api/cars` (`carQuerySchema`):
`page`, `limit`, `sort`, `status` always present thanks to Joi defaults,
the rest optional. -/
structure QueryParams where
  page : Nat
  limit : Nat
  sort : String
  make : Option String
  model : Option String
  minPrice : Option ℚ
  maxPrice : Option ℚ
  minYear : Option Nat
  maxYear : Option Nat
  fuelType : Option String
  transmission : Option String
  bodyType : Option String
  city : Option String
  state : Option String
  status : String
deriving DecidableEq

/-- Whitespace as the `trim` setters see it. -/
def isSpaceChar (c : Char) : Bool := c == ' ' || c == '\t' || c == '\n' || c == '\r'

/-- The `trim` string setter: strip leading and trailing whitespace. -/
def trimStr (s : String) : String :=
  String.mk (((s.toList.dropWhile isSpaceChar).reverse.dropWhile isSpaceChar).reverse)

/-- The `lowercase` string setter / JS `toLowerCase()`. -/
def lowerStr (s : String) : String := String.mk (s.toList.map Char.toLower)

/-- JS truthiness of an optional number (`if (minPrice)`): absent and `0`
are both falsy. -/
def truthyQ (o : Option ℚ) : Bool := decide (o.getD 0 ≠ 0)

/-- JS truthiness of an optional integer parameter. -/
def truthyN (o : Option Nat) : Bool := decide (o.getD 0 ≠ 0)

/-- JS truthiness of an optional string (`if (make)`): absent and `""` are
falsy. -/
def truthyS (o : Option String) : Bool := decide (o.getD "" ≠ "")

/-- `pat` occurs at the head of `hay`. -/
def leadMatch : List Char → List Char → Bool
  | [], _ => true
  | _ :: _, [] => false
  | a :: as, b :: bs => a == b && leadMatch as bs

/-- `pat` occurs as a contiguous run inside `hay`. -/
def hasSub (pat : List Char) : List Char → Bool
  | [] => pat.isEmpty
  | c :: t => leadMatch pat (c :: t) || hasSub pat t

/-- `new RegExp(pat, 'i')` applied to a literal pattern: case-insensitive
substring match. -/
def containsCI (hay pat : String) : Bool :=
  hasSub (lowerStr pat).toList (lowerStr hay).toList

/-- One optional partial-text predicate of the compiled filter
(`filter.make = new RegExp(make, 'i')`), skipped when the parameter is
falsy. -/
def textFilter (o : Option String) (field : String) : Bool :=
  if truthyS o then containsCI field (o.getD "") else true

/-- One optional exact-match predicate (`filter.fuelType = fuelType`). -/
def exactFilter (o : Option String) (field : String) : Bool :=
  if truthyS o then field == o.getD "" else true

/-- The `filter.price` range: built only when `minPrice || maxPrice` is
truthy, and each bound is attached only when itself truthy. -/
def priceFilter (p : QueryParams) (c : Car) : Bool :=
  if truthyQ p.minPrice || truthyQ p.maxPrice then
    (if truthyQ p.minPrice then decide (p.minPrice.getD 0 ≤ c.price) else true) &&
    (if truthyQ p.maxPrice then decide (c.price ≤ p.maxPrice.getD 0) else true)
  else true

/-- The `filter.year` range, same truthiness structure as the price range. -/
def yearFilter (p : QueryParams) (c : Car) : Bool :=
  if truthyN p.minYear || truthyN p.maxYear then
    (if truthyN p.minYear then decide (p.minYear.getD 0 ≤ c.year) else true) &&
    (if truthyN p.maxYear then decide (c.year ≤ p.maxYear.getD 0) else true)
  else true

/-- The compiled Mongo filter of `getCars` (carController.js lines 31-50):
`{ isActive: true, status }` plus the present optional predicates, all
conjoined. -/
def matchesFilter (p : QueryParams) (c : Car) : Bool :=
  c.isActive && (c.status == p.status)
    && textFilter p.make c.make && textFilter p.model c.model
    && priceFilter p c && yearFilter p c
    && exactFilter p.fuelType c.fuelType && exactFilter p.transmission c.transmission
    && exactFilter p.bodyType c.bodyType
    && textFilter p.city c.city && textFilter p.state c.state

/-- Numeric sort key for the fixed sort-field enumeration of
`carQuerySchema` (`price`, `year`, `mileage`, `createdAt`). -/
def sortKey (c : Car) (field : String) : ℚ :=
  if field = "price" then c.price
  else if field = "year" then (c.year : ℚ)
  else if field = "mileage" then c.mileage
  else (c.createdAt : ℚ)

/-- Ascending order on a sort field. -/
def keyLE (field : String) (a b : Car) : Prop := sortKey a field ≤ sortKey b field

/-- Descending order on a sort field (a leading `-` in the sort string). -/
def keyGE (field : String) (a b : Car) : Prop := sortKey b field ≤ sortKey a field

instance (field : String) : DecidableRel (keyLE field) :=
  fun a b => inferInstanceAs (Decidable (sortKey a field ≤ sortKey b field))

instance (field : String) : DecidableRel (keyGE field) :=
  fun a b => inferInstanceAs (Decidable (sortKey b field ≤ sortKey a field))

/-- `.sort(sort)`: a leading `-` selects descending order on the named
field, otherwise ascending. -/
def sortCars (sort : String) (l : List Car) : List Car :=
  match sort.toList with
  | '-' :: rest => List.insertionSort (keyGE (String.mk rest)) l
  | _ => List.insertionSort (keyLE sort) l

/-- Pagination metadata of the `getCars` response. -/
structure Pagination where
  page : Nat
  limit : Nat
  total : Nat
  totalPages : Nat
  hasNext : Bool
  hasPrev : Bool
deriving DecidableEq

/-- The `getCars` response payload. -/
structure CarsResponse where
  count : Nat
  pagination : Pagination
  data : List Car
deriving DecidableEq

/-- `getCars` (carController.js lines 8-82): compile the filter, sort,
apply `skip = (page-1)*limit` and `limit`, and count the whole match set
for the pagination metadata (`Math.ceil(total/limit)` is ℕ ceiling
division). -/
def getCars (store : List Car) (p : QueryParams) : CarsResponse :=
  let matched := store.filter (matchesFilter p)
  let cars := ((sortCars p.sort matched).drop ((p.page - 1) * p.limit)).take p.limit
  let total := matched.length
  let totalPages := (total + p.limit - 1) / p.limit
  { count := cars.length
    pagination :=
      { page := p.page, limit := p.limit, total := total, totalPages := totalPages
        hasNext := decide (p.page < totalPages), hasPrev := decide (1 < p.page) }
    data := cars }

/-- `Car.findById`: the first (in Mongo the unique) document with the
given id. -/
def findCar (store : List Car) (id : Nat) : Option Car :=
  store.find? (fun c => c.id == id)

/-- Outcome of `getCar` (`GET /api/cars/:id`). -/
inductive GetCarResult where
  | notFound
  | ok (car : Car)
deriving DecidableEq

/-- `findByIdAndUpdate(id, { $inc: { viewCount: 1 } })`: bump the view
counter of the matching document, leaving every other field and every
other document unchanged. -/
def incViewCount (store : List Car) (id : Nat) : List Car :=
  store.map (fun c => if c.id == id then { c with viewCount := c.viewCount + 1 } else c)

/-- `getCar` (carController.js lines 89-110): 404 when the document is
missing or inactive; otherwise increment the view counter and answer with
the snapshot read before the increment. -/
def getCar (store : List Car) (id : Nat) : GetCarResult × List Car :=
  match findCar store id with
  | none => (.notFound, store)
  | some car =>
    if car.isActive then (.ok car, incViewCount store id)
    else (.notFound, store)

/-- First character uppercased, the rest lowercased — the `pre('save')`
hook of Car.js (`charAt(0).toUpperCase() + slice(1).toLowerCase()`). -/
def normalizeCap (s : String) : String :=
  match s.toList with
  | [] => ""
  | c :: rest => String.mk (c.toUpper :: rest.map Char.toLower)

/-- The Mongoose `lowercase`/`trim` setter on `seller.email`. -/
def emailSetter (o : Option String) : Option String :=
  o.map (fun e => lowerStr (trimStr e))

/-- `Car.create` materialization of a document: schema `trim`/`lowercase`
setters, schema defaults (`isActive: true`, `viewCount: 0`) and the
`pre('save')` capitalization hook on make/model. -/
def saveCar (input : CarInput) (newId : Nat) (now : Nat) : Car :=
  { id := newId
    make := normalizeCap (trimStr input.make)
    model := normalizeCap (trimStr input.model)
    year := input.year
    price := input.price
    mileage := input.mileage
    fuelType := lowerStr input.fuelType
    transmission := lowerStr input.transmission
    bodyType := lowerStr input.bodyType
    color := trimStr input.color
    city := trimStr input.city
    state := trimStr input.state
    seller := { name := trimStr input.sellerName, phone := trimStr input.sellerPhone
                email := emailSetter input.sellerEmail }
    status := input.status
    isActive := true
    viewCount := 0
    createdAt := now }

/-- `createCar` (carController.js lines 117-138): spread the body but
overwrite `seller.email` with `req.user.email`, then persist. -/
def createCar (store : List Car) (u : AuthUser) (body : CarInput) (newId : Nat) (now : Nat) :
    Car × List Car :=
  let carData := { body with sellerEmail := some u.email }
  let car := saveCar carData newId now
  (car, store ++ [car])

/-- Outcome of `updateCar` (`PUT /api/cars/:id`). -/
inductive UpdateResult where
  | notFound
  | ok (car : Car)
deriving DecidableEq

/-- `findByIdAndUpdate(id, body, { new: true, runValidators: true })` on
one document: schema setters (`trim`, `lowercase`) run on the update path,
but the `pre('save')` hook does not, so make/model keep the submitted
capitalization; `id`, `isActive`, `viewCount` and `createdAt` are not in
the validated body (Joi `stripUnknown`) and stay untouched. -/
def applyUpdate (c : Car) (b : CarInput) : Car :=
  { c with
    make := trimStr b.make
    model := trimStr b.model
    year := b.year
    price := b.price
    mileage := b.mileage
    fuelType := lowerStr b.fuelType
    transmission := lowerStr b.transmission
    bodyType := lowerStr b.bodyType
    color := trimStr b.color
    city := trimStr b.city
    state := trimStr b.state
    seller := { name := trimStr b.sellerName, phone := trimStr b.sellerPhone
                email := emailSetter b.sellerEmail }
    status := b.status }

/-- `updateCar` (carController.js lines 145-173): 404 exactly when
`findById` answers nothing — `req.user` is never consulted and the active
flag is not checked; otherwise apply the patch and answer the updated
document. -/
def updateCar (store : List Car) (u : AuthUser) (id : Nat) (body : CarInput) :
    UpdateResult × List Car :=
  match findCar store id with
  | none => (.notFound, store)
  | some c =>
    (.ok (applyUpdate c body),
     store.map (fun x => if x.id == id then applyUpdate x body else x))

/-- Outcome of `deleteCar` (`DELETE /api/cars/:id`). -/
inductive DeleteResult where
  | notFound
  | ok
deriving DecidableEq

/-- `deleteCar` (carController.js lines 180-201): 404 exactly when the
document is missing; otherwise flip `isActive` to false (soft delete),
again with no ownership or active-flag check. -/
def deleteCar (store : List Car) (u : AuthUser) (id : Nat) : DeleteResult × List Car :=
  match findCar store id with
  | none => (.notFound, store)
  | some _ =>
    (.ok, store.map (fun x => if x.id == id then { x with isActive := false } else x))

/-- The `$match` stage shared by all three `getCarStats` pipelines. -/
def statsMatch (c : Car) : Bool := c.isActive && (c.status == "available")

/-- The `_id: null` overview group of `getCarStats`. -/
structure Overview where
  totalCars : Nat
  avgPrice : ℚ
  minPrice : ℚ
  maxPrice : ℚ
  avgYear : ℚ
  avgMileage : ℚ
deriving DecidableEq

/-- One `topMakes` group (`_id: '$make'`). -/
structure MakeStat where
  make : String
  count : Nat
  avgPrice : ℚ
deriving DecidableEq

/-- One `fuelTypeDistribution` group (`_id: '$fuelType'`). -/
structure FuelStat where
  fuelType : String
  count : Nat
deriving DecidableEq

/-- The `$group { _id: null, ... }` stage: over an empty input the stage
emits no row, which `stats[0] || {}` turns into the empty object —
modelled as `none`. -/
def overviewOf : List Car → Option Overview
  | [] => none
  | c :: rest =>
    some
      { totalCars := (c :: rest).length
        avgPrice := ((c :: rest).map (fun x => x.price)).sum / ((c :: rest).length : ℚ)
        minPrice := rest.foldl (fun a x => min a x.price) c.price
        maxPrice := rest.foldl (fun a x => max a x.price) c.price
        avgYear := ((c :: rest).map (fun x => (x.year : ℚ))).sum / ((c :: rest).length : ℚ)
        avgMileage := ((c :: rest).map (fun x => x.mileage)).sum / ((c :: rest).length : ℚ) }

/-- The `$group { _id: '$make' }` stage: one group per distinct make, with
its document count and average price. -/
def groupByMake (l : List Car) : List MakeStat :=
  ((l.map (fun c => c.make)).dedup).map (fun k =>
    { make := k
      count := (l.filter (fun c => c.make == k)).length
      avgPrice := ((l.filter (fun c => c.make == k)).map (fun c => c.price)).sum /
        ((l.filter (fun c => c.make == k)).length : ℚ) })

/-- Descending order on group counts (`$sort: { count: -1 }`). -/
def countGE (a b : MakeStat) : Prop := b.count ≤ a.count

instance : DecidableRel countGE := fun a b => inferInstanceAs (Decidable (b.count ≤ a.count))

instance : IsTotal MakeStat countGE := ⟨fun a b => Nat.le_total b.count a.count⟩

instance : IsTrans MakeStat countGE := ⟨fun _ _ _ hab hbc => Nat.le_trans hbc hab⟩

/-- The `topMakes` pipeline: group by make, sort by count descending,
`$limit: 10`. -/
def topMakesOf (l : List Car) : List MakeStat :=
  (List.insertionSort countGE (groupByMake l)).take 10

/-- Descending order on fuel-type group counts. -/
def fuelCountGE (a b : FuelStat) : Prop := b.count ≤ a.count

instance : DecidableRel fuelCountGE := fun a b => inferInstanceAs (Decidable (b.count ≤ a.count))

/-- The `fuelTypeDistribution` pipeline: group by fuel type, sort by count
descending, no truncation. -/
def fuelStatsOf (l : List Car) : List FuelStat :=
  List.insertionSort fuelCountGE
    (((l.map (fun c => c.fuelType)).dedup).map (fun k =>
      { fuelType := k, count := (l.filter (fun c => c.fuelType == k)).length }))

/-- The `getCarStats` response payload. -/
structure StatsData where
  overview : Option Overview
  topMakes : List MakeStat
  fuelTypeDistribution : List FuelStat
deriving DecidableEq

/-- `getCarStats` (carController.js lines 242-306): three independent
aggregations over the same `{ isActive: true, status: 'available' }`
match set. -/
def carStats (store : List Car) : StatsData :=
  { overview := overviewOf (store.filter statsMatch)
    topMakes := topMakesOf (store.filter statsMatch)
    fuelTypeDistribution := fuelStatsOf (store.filter statsMatch) }

/-- The decoded token payload, as far as the auth middleware consumes it
(`decoded.id`). -/
structure TokenClaims where
  id : Nat
deriving DecidableEq

/-- JS `split(' ')`: cut the character list at every single space. -/
def splitSpace : List Char → List (List Char)
  | [] => [[]]
  | c :: t =>
    if c == ' ' then [] :: splitSpace t
    else
      match splitSpace t with
      | [] => [[c]]
      | h :: r => (c :: h) :: r

/-- The parts of an Authorization header value, as `authHeader.split(' ')`
produces them. -/
def headerParts (h : String) : List String := (splitSpace h.toList).map String.mk

/-- `extractTokenFromHeader` (jwt.js lines 71-80): falsy header gives
null; otherwise split on single spaces and accept exactly the two-part
`Bearer <token>` shape. -/
def extractTokenFromHeader (authHeader : Option String) : Option String :=
  match authHeader with
  | none => none
  | some h =>
    if h = "" then none
    else
      match headerParts h with
      | [p0, p1] => if p0 = "Bearer" then some p1 else none
      | _ => none

/-- Outcome of the `authenticate` middleware: either a 401 with a message,
or the resolved user bound to `req.user`. -/
inductive AuthOutcome where
  | unauthenticated (message : String)
  | ok (u : AuthUser)
deriving DecidableEq

/-- `authenticate` (auth.js lines 8-41).  Token verification and the user
lookup are boundary collaborators, passed in as functions: `verify`
answers the decoded claims or the thrown error message, `findUser` the
user document for an id. -/
def authenticate (verify : String → Except String TokenClaims)
    (findUser : Nat → Option AuthUser) (authHeader : Option String) : AuthOutcome :=
  match extractTokenFromHeader authHeader with
  | none => .unauthenticated "Access denied. No token provided."
  | some token =>
    match verify token with
    | .error msg => .unauthenticated msg
    | .ok decoded =>
      match findUser decoded.id with
      | none => .unauthenticated "Access denied. User not found or inactive."
      | some u =>
        if u.isActive then .ok u
        else .unauthenticated "Access denied. User not found or inactive."

/-- `optionalAuth` (auth.js lines 71-90): the same resolution wrapped in a
try/catch that always calls `next()` — it can only bind a user or bind
nothing, never fail; the total return type is the "never fails" contract. -/
def optionalAuth (verify : String → Except String TokenClaims)
    (findUser : Nat → Option AuthUser) (authHeader : Option String) : Option AuthUser :=
  match extractTokenFromHeader authHeader with
  | none => none
  | some token =>
    match verify token with
    | .error _ => none
    | .ok decoded =>
      match findUser decoded.id with
      | none => none
      | some u => if u.isActive then some u else none

/-! Concrete sample data used by witnesses and counterexamples. -/

/-- A sample authenticated user. -/
def user1 : AuthUser :=
  { id := 1, email := "alice@example.com", username := "alice", role := "user", isActive := true }

/-- A second sample user with a different email. -/
def user2 : AuthUser :=
  { id := 2, email := "bob@example.com", username := "bob", role := "user", isActive := true }

/-- A sample active, available listing. -/
def carA : Car :=
  { id := 1, make := "Maruti suzuki", model := "Swift", year := 2020, price := 500000
    mileage := 30000, fuelType := "petrol", transmission := "manual", bodyType := "hatchback"
    color := "Red", city := "Pune", state := "Maharashtra"
    seller := { name := "Alice", phone := "+911234567890", email := some "alice@example.com" }
    status := "available", isActive := true, viewCount := 0, createdAt := 100 }

/-- A second active, available listing with another make. -/
def carB : Car :=
  { id := 2, make := "Hyundai", model := "I20", year := 2019, price := 550000
    mileage := 40000, fuelType := "diesel", transmission := "manual", bodyType := "hatchback"
    color := "Blue", city := "Mumbai", state := "Maharashtra"
    seller := { name := "Bob", phone := "+911234567891", email := some "bob@example.com" }
    status := "available", isActive := true, viewCount := 3, createdAt := 200 }

/-- A soft-deleted listing (`isActive = false`). -/
def carC : Car :=
  { id := 3, make := "Tata", model := "Nexon", year := 2021, price := 700000
    mileage := 10000, fuelType := "petrol", transmission := "automatic", bodyType := "suv"
    color := "White", city := "Delhi", state := "Delhi"
    seller := { name := "Carol", phone := "+911234567892", email := some "carol@example.com" }
    status := "available", isActive := false, viewCount := 7, createdAt := 300 }

/-- A sample validated request body. -/
def input1 : CarInput :=
  { make := "mARUTI suzuki", model := "Swift", year := 2020, price := 450000
    mileage := 35000, fuelType := "petrol", transmission := "manual", bodyType := "hatchback"
    color := "Red", city := "Pune", state := "Maharashtra"
    sellerName := "Mallory", sellerPhone := "+911234567893"
    sellerEmail := some "mallory@example.com", status := "available" }

/-- The default validated query: Joi defaults only, no optional filter. -/
def baseParams : QueryParams :=
  { page := 1, limit := 10, sort := "-createdAt", make := none, model := none
    minPrice := none, maxPrice := none, minYear := none, maxYear := none
    fuelType := none, transmission := none, bodyType := none, city := none, state := none
    status := "available" }

/-! Helper lemmas shared by the claim theorems. -/

theorem bool_eq_iff {a b : Bool} (h : a = true ↔ b = true) : a = b := by
  cases a <;> cases b <;> simp_all

theorem sortCars_perm (sort : String) (l : List Car) : (sortCars sort l).Perm l := by
  unfold sortCars
  split <;> exact List.perm_insertionSort _ _

theorem findCar_map_of_id (s : List Car) (id : Nat) (f : Car → Car)
    (hf : ∀ c, (f c).id = c.id) :
    findCar (s.map (fun c => if c.id == id then f c else c)) id = (findCar s id).map f := by
  induction s with
  | nil => rfl
  | cons a t ih =>
    unfold findCar at ih ⊢
    rw [List.map_cons]
    by_cases h : a.id = id
    · have hcond : (if a.id == id then f a else a) = f a := by simp [h]
      have h1 : (a.id == id) = true := by simp [h]
      have h2 : ((f a).id == id) = true := by simp [hf, h]
      rw [hcond]
      simp only [List.find?_cons, h1, h2]
      rfl
    · have hcond : (if a.id == id then f a else a) = a := by simp [h]
      have h1 : (a.id == id) = false := by simp [h]
      rw [hcond]
      simp only [List.find?_cons, h1]
      exact ih

/-- C1: the persisted listing of a create always carries the authenticated
identity's email as seller email (the User model stores emails trimmed and
lowercased, which is the hypothesis on `u.email`), independently of the
seller email submitted in the payload, and the new document is appended to
the store. -/
theorem createCar_stamps_seller_email (store : List Car) (u : AuthUser) (body : CarInput)
    (newId now : Nat) (hmail : lowerStr (trimStr u.email) = u.email) :
    (createCar store u body newId now).1.seller.email = some u.email
  ∧ (createCar store u body newId now).2 = store ++ [(createCar store u body newId now).1]
  ∧ (∀ body', (createCar store u body' newId now).1.seller.email =
      (createCar store u body newId now).1.seller.email) := by
  refine ⟨?_, rfl, fun body' => ?_⟩ <;> simp [createCar, saveCar, emailSetter, hmail]

theorem createCar_stamps_seller_email_witness :
    lowerStr (trimStr user1.email) = user1.email
  ∧ (createCar [] user1 input1 5 400).1.seller.email = some user1.email :=
  ⟨by decide, (createCar_stamps_seller_email [] user1 input1 5 400 (by decide)).1⟩

/-- C6: update and soft delete answer 404 exactly when no document exists
for the id — the active flag is ignored by the existence check and the
caller's identity never influences the outcome, so a non-owner obtains the
same result as the owner, and both mutations proceed even on an inactive
listing. -/
theorem mutation_notfound_iff (store : List Car) (u u' : AuthUser) (id : Nat)
    (body : CarInput) :
    ((updateCar store u id body).1 = .notFound ↔ findCar store id = none)
  ∧ ((deleteCar store u id).1 = .notFound ↔ findCar store id = none)
  ∧ updateCar store u id body = updateCar store u' id body
  ∧ deleteCar store u id = deleteCar store u' id
  ∧ (∀ c, findCar store id = some c → c.isActive = false →
      (updateCar store u id body).1 = .ok (applyUpdate c body)
      ∧ (deleteCar store u id).1 = .ok) := by
  refine ⟨?_, ?_, rfl, rfl, fun c hc _ => ?_⟩ <;>
    cases h : findCar store id <;> simp_all [updateCar, deleteCar]

theorem mutation_notfound_iff_witness :
    (updateCar [carC] user1 3 input1).1 = .ok (applyUpdate carC input1)
  ∧ (deleteCar [carC] user1 3).1 = .ok :=
  (mutation_notfound_iff [carC] user1 user2 3 input1).2.2.2.2 carC (by decide) (by decide)

/-- C9: with no Authorization header (or any header that is not the exact
two-part `Bearer <token>` shape) `authenticate` answers 401 with the
no-token message, while `optionalAuth` — being total — never fails: on the
same request, and whenever verification or the user lookup fails or the
resolved user is inactive, it binds no identity. -/
theorem auth_guard_contract (verify : String → Except String TokenClaims)
    (findUser : Nat → Option AuthUser) (h : Option String) :
    authenticate verify findUser none = .unauthenticated "Access denied. No token provided."
  ∧ (extractTokenFromHeader h = none →
      authenticate verify findUser h = .unauthenticated "Access denied. No token provided.")
  ∧ (∀ hs t, extractTokenFromHeader (some hs) = some t ↔ headerParts hs = ["Bearer", t])
  ∧ optionalAuth verify findUser none = none
  ∧ (extractTokenFromHeader h = none → optionalAuth verify findUser h = none)
  ∧ (∀ t msg, extractTokenFromHeader h = some t → verify t = .error msg →
      optionalAuth verify findUser h = none)
  ∧ (∀ t claims, extractTokenFromHeader h = some t → verify t = .ok claims →
      findUser claims.id = none → optionalAuth verify findUser h = none)
  ∧ (∀ t claims u, extractTokenFromHeader h = some t → verify t = .ok claims →
      findUser claims.id = some u → u.isActive = false →
      optionalAuth verify findUser h = none) := by
  refine ⟨rfl, ?_, ?_, rfl, ?_, ?_, ?_, ?_⟩
  · intro he; simp [authenticate, he]
  · intro hs t
    by_cases hhs : hs = ""
    · subst hhs
      have h0 : headerParts "" = [""] := rfl
      simp [extractTokenFromHeader, h0]
    · simp only [extractTokenFromHeader, if_neg hhs]
      rcases hp : headerParts hs with _ | ⟨a, _ | ⟨b, _ | _⟩⟩
      · simp
      · simp
      · by_cases hb : a = "Bearer"
        · subst hb; simp
        · simp [hb]
      · simp
  · intro he; simp [optionalAuth, he]
  · intro t msg ht hv; simp [optionalAuth, ht, hv]
  · intro t claims ht hv hf; simp [optionalAuth, ht, hv, hf]
  · intro t claims u ht hv hf hu; simp [optionalAuth, ht, hv, hf, hu]

theorem auth_guard_contract_witness :
    authenticate (fun _ => .error "Invalid token") (fun _ => none) none =
      .unauthenticated "Access denied. No token provided."
  ∧ optionalAuth (fun _ => .error "Invalid token") (fun _ => none) (some "Token abc") = none :=
  ⟨(auth_guard_contract (fun _ => .error "Invalid token") (fun _ => none) none).1,
   (auth_guard_contract (fun _ => .error "Invalid token") (fun _ => none)
      (some "Token abc")).2.2.2.2.1 (by decide)⟩

/-- C5: direct lookup answers 404 exactly when the document is missing or
inactive; on success it answers the pre-increment snapshot, the persisted
document afterwards carries exactly one more view, every other document is
untouched, and a touched document differs only in its view counter. -/
theorem getCar_view_increment (s : List Car) (id : Nat) :
    ((getCar s id).1 = .notFound ↔
      findCar s id = none ∨ ∃ c, findCar s id = some c ∧ c.isActive = false)
  ∧ (∀ c, findCar s id = some c → c.isActive = true →
      (getCar s id).1 = .ok c
      ∧ findCar (getCar s id).2 id = some { c with viewCount := c.viewCount + 1 }
      ∧ (∀ x ∈ s, x.id ≠ id → x ∈ (getCar s id).2)
      ∧ (∀ y ∈ (getCar s id).2, ∃ x, x ∈ s ∧
          (y = x ∨ (x.id = id ∧ y = { x with viewCount := x.viewCount + 1 })))) := by
  constructor
  · cases h : findCar s id with
    | none => simp [getCar, h]
    | some c => cases hact : c.isActive <;> simp [getCar, h, hact]
  · intro c h hact
    have hres : getCar s id = (.ok c, incViewCount s id) := by simp [getCar, h, hact]
    rw [hres]
    refine ⟨rfl, ?_, ?_, ?_⟩
    · have := findCar_map_of_id s id (fun x => { x with viewCount := x.viewCount + 1 })
        (fun _ => rfl)
      rw [incViewCount, this, h]
      rfl
    · intro x hx hxid
      refine List.mem_map.mpr ⟨x, hx, ?_⟩
      simp [hxid]
    · intro y hy
      obtain ⟨x, hx, hxy⟩ := List.mem_map.mp hy
      by_cases hxid : x.id = id
      · exact ⟨x, hx, Or.inr ⟨hxid, by rw [← hxy]; simp [hxid]⟩⟩
      · exact ⟨x, hx, Or.inl (by simp [hxid] at hxy; exact hxy.symm)⟩

theorem getCar_view_increment_witness :
    (getCar [carA, carB] 1).1 = .ok carA
  ∧ findCar (getCar [carA, carB] 1).2 1 = some { carA with viewCount := carA.viewCount + 1 } :=
  ⟨((getCar_view_increment [carA, carB] 1).2 carA (by decide) (by decide)).1,
   ((getCar_view_increment [carA, carB] 1).2 carA (by decide) (by decide)).2.1⟩

/-- C2: a soft-deleted listing (`isActive = false`) never appears in the
`getCars` page nor in the statistics match set — the compiled filters force
`isActive = true` plus the resolved status — and direct lookup answers 404
while leaving the store (and hence the record) intact. -/
theorem inactive_invisible (s : List Car) (p : QueryParams) (c : Car)
    (hmem : c ∈ s) (hinact : c.isActive = false) :
    c ∉ (getCars s p).data
  ∧ (∀ x, matchesFilter p x = true → x.isActive = true ∧ x.status = p.status)
  ∧ c ∉ s.filter statsMatch
  ∧ (∀ x, statsMatch x = true → x.isActive = true ∧ x.status = "available")
  ∧ (findCar s c.id = some c → (getCar s c.id).1 = .notFound ∧ (getCar s c.id).2 = s)
  ∧ c ∈ s := by
  have hchar : ∀ x, matchesFilter p x = true → x.isActive = true ∧ x.status = p.status := by
    intro x hx
    simp only [matchesFilter, Bool.and_eq_true, beq_iff_eq] at hx
    exact ⟨hx.1.1.1.1.1.1.1.1.1.1, hx.1.1.1.1.1.1.1.1.1.2⟩
  have hstat : ∀ x, statsMatch x = true → x.isActive = true ∧ x.status = "available" := by
    intro x hx
    simp only [statsMatch, Bool.and_eq_true, beq_iff_eq] at hx
    exact hx
  refine ⟨?_, hchar, ?_, hstat, ?_, hmem⟩
  · intro hc
    have h1 : c ∈ sortCars p.sort (s.filter (matchesFilter p)) :=
      List.mem_of_mem_drop (List.mem_of_mem_take hc)
    have h2 : c ∈ s.filter (matchesFilter p) := (sortCars_perm _ _).mem_iff.mp h1
    have h3 := (List.mem_filter.mp h2).2
    rw [(hchar c h3).1] at hinact
    exact Bool.true_eq_false.mp hinact
  · intro hc
    have h3 := (List.mem_filter.mp hc).2
    rw [(hstat c h3).1] at hinact
    exact Bool.true_eq_false.mp hinact
  · intro hfind
    constructor <;> simp [getCar, hfind, hinact]

theorem inactive_invisible_witness :
    carC ∉ (getCars [carA, carC] baseParams).data
  ∧ carC ∉ List.filter statsMatch [carA, carC]
  ∧ (getCar [carA, carC] carC.id).1 = .notFound :=
  ⟨(inactive_invisible [carA, carC] baseParams carC (by decide) (by decide)).1,
   (inactive_invisible [carA, carC] baseParams carC (by decide) (by decide)).2.2.1,
   ((inactive_invisible [carA, carC] baseParams carC (by decide) (by decide)).2.2.2.2.1
      (by decide)).1⟩

theorem ceil_div_bounds (T L : Nat) (hL : 0 < L) :
    T ≤ (T + L - 1) / L * L
  ∧ (T + L - 1) / L * L < T + L
  ∧ ∀ pg, (pg < (T + L - 1) / L ↔ pg * L < T) := by
  have hd := Nat.div_add_mod (T + L - 1) L
  have hm : (T + L - 1) % L < L := Nat.mod_lt _ hL
  refine ⟨?_, ?_, fun pg => ⟨fun hpq => ?_, fun hlt => ?_⟩⟩
  · rw [Nat.mul_comm]
    omega
  · rw [Nat.mul_comm]
    omega
  · have h1 : pg + 1 ≤ (T + L - 1) / L := hpq
    have h2 := Nat.mul_le_mul_right L h1
    rw [Nat.add_mul, Nat.one_mul, Nat.mul_comm ((T + L - 1) / L) L] at h2
    omega
  · by_contra hno
    have h1 : (T + L - 1) / L ≤ pg := Nat.le_of_not_lt hno
    have h2 := Nat.mul_le_mul_right L h1
    rw [Nat.mul_comm ((T + L - 1) / L) L] at h2
    omega

/-- C3: for a validated page `P ≥ 1` and limit `N ∈ [1,100]`, the returned
page holds at most `N` records cut at offset `(P-1)*N`, `total` is the size
of the whole match set (independent of the page window), `totalPages` is
the ceiling of `total / N` (characterized by its two bounds), `hasNext`
holds exactly when `P*N < total`, and `hasPrev` exactly when `P > 1`. -/
theorem getCars_pagination (s : List Car) (p : QueryParams)
    (hpage : 1 ≤ p.page) (hlimit : 1 ≤ p.limit) (hlimit' : p.limit ≤ 100) :
    (getCars s p).data.length ≤ p.limit
  ∧ (getCars s p).data =
      ((sortCars p.sort (s.filter (matchesFilter p))).drop ((p.page - 1) * p.limit)).take
        p.limit
  ∧ (getCars s p).count = (getCars s p).data.length
  ∧ (getCars s p).pagination.total = (s.filter (matchesFilter p)).length
  ∧ (s.filter (matchesFilter p)).length ≤ (getCars s p).pagination.totalPages * p.limit
  ∧ (getCars s p).pagination.totalPages * p.limit < (s.filter (matchesFilter p)).length + p.limit
  ∧ ((getCars s p).pagination.hasNext = true ↔
      p.page * p.limit < (s.filter (matchesFilter p)).length)
  ∧ ((getCars s p).pagination.hasPrev = true ↔ 1 < p.page) := by
  obtain ⟨hb1, hb2, hb3⟩ :=
    ceil_div_bounds (s.filter (matchesFilter p)).length p.limit hlimit
  refine ⟨List.length_take_le _ _, rfl, rfl, rfl, hb1, hb2, ?_, ?_⟩
  · show decide (p.page < ((s.filter (matchesFilter p)).length + p.limit - 1) / p.limit) = true ↔ _
    rw [decide_eq_true_iff]
    exact hb3 p.page
  · show decide (1 < p.page) = true ↔ _
    rw [decide_eq_true_iff]

theorem getCars_pagination_witness :
    (getCars [carA, carB, carC] baseParams).data.length ≤ baseParams.limit
  ∧ ((getCars [carA, carB, carC] baseParams).pagination.hasNext = true ↔
      baseParams.page * baseParams.limit < ([carA, carB, carC].filter
        (matchesFilter baseParams)).length) :=
  ⟨(getCars_pagination [carA, carB, carC] baseParams (by decide) (by decide) (by decide)).1,
   (getCars_pagination [carA, carB, carC] baseParams (by decide) (by decide)
      (by decide)).2.2.2.2.2.2.1⟩

theorem matchesFilter_factor_price (p : QueryParams) (c : Car) :
    matchesFilter p c =
      (priceFilter p c && matchesFilter { p with minPrice := none, maxPrice := none } c) := by
  have hpnone : priceFilter { p with minPrice := none, maxPrice := none } c = true := by
    simp [priceFilter, truthyQ]
  apply bool_eq_iff
  simp only [matchesFilter, hpnone, Bool.and_eq_true, Bool.and_true]
  tauto

theorem matchesFilter_factor_year (p : QueryParams) (c : Car) :
    matchesFilter p c =
      (yearFilter p c && matchesFilter { p with minYear := none, maxYear := none } c) := by
  have hynone : yearFilter { p with minYear := none, maxYear := none } c = true := by
    simp [yearFilter, truthyN]
  apply bool_eq_iff
  simp only [matchesFilter, hynone, Bool.and_eq_true, Bool.and_true]
  tauto

/-- C4 counterexample: `maxPrice = 0` passes the query validator but is
falsy in JS, so `if (minPrice || maxPrice)` skips the price range
entirely: on a store holding one visible listing priced 500000, the code's
match set keeps the listing, while a `price ≤ 0` predicate — the claim's
reading of a present `maxPrice=0` bound — would exclude it. -/
theorem range_filter_counterexample :
    ¬ (List.filter (matchesFilter { baseParams with maxPrice := some 0 }) [carA] =
        List.filter (fun c => matchesFilter baseParams c && decide (c.price ≤ (0 : ℚ)))
          [carA]) := by
  decide

/-- C4 amended: a range bound participates in the compiled filter exactly
when it is present with a nonzero (truthy) value; with both price bounds
truthy the match set is exactly the price-unconstrained match set cut to
`[X, Y]`, with one truthy bound only that bound is applied, and when both
bounds are absent or zero no price predicate is applied at all; the same
holds for the year range. -/
theorem range_filters_amended (s : List Car) (p : QueryParams) :
    (∀ X Y, p.minPrice = some X → p.maxPrice = some Y → X ≠ 0 → Y ≠ 0 →
      s.filter (matchesFilter p) =
        (s.filter (matchesFilter { p with minPrice := none, maxPrice := none })).filter
          (fun c => decide (X ≤ c.price) && decide (c.price ≤ Y)))
  ∧ (∀ X, p.minPrice = some X → X ≠ 0 → truthyQ p.maxPrice = false →
      s.filter (matchesFilter p) =
        (s.filter (matchesFilter { p with minPrice := none, maxPrice := none })).filter
          (fun c => decide (X ≤ c.price)))
  ∧ (∀ Y, p.maxPrice = some Y → Y ≠ 0 → truthyQ p.minPrice = false →
      s.filter (matchesFilter p) =
        (s.filter (matchesFilter { p with minPrice := none, maxPrice := none })).filter
          (fun c => decide (c.price ≤ Y)))
  ∧ (truthyQ p.minPrice = false → truthyQ p.maxPrice = false →
      s.filter (matchesFilter p) =
        s.filter (matchesFilter { p with minPrice := none, maxPrice := none }))
  ∧ (∀ X Y, p.minYear = some X → p.maxYear = some Y → X ≠ 0 → Y ≠ 0 →
      s.filter (matchesFilter p) =
        (s.filter (matchesFilter { p with minYear := none, maxYear := none })).filter
          (fun c => decide (X ≤ c.year) && decide (c.year ≤ Y)))
  ∧ (∀ X, p.minYear = some X → X ≠ 0 → truthyN p.maxYear = false →
      s.filter (matchesFilter p) =
        (s.filter (matchesFilter { p with minYear := none, maxYear := none })).filter
          (fun c => decide (X ≤ c.year)))
  ∧ (∀ Y, p.maxYear = some Y → Y ≠ 0 → truthyN p.minYear = false →
      s.filter (matchesFilter p) =
        (s.filter (matchesFilter { p with minYear := none, maxYear := none })).filter
          (fun c => decide (c.year ≤ Y)))
  ∧ (truthyN p.minYear = false → truthyN p.maxYear = false →
      s.filter (matchesFilter p) =
        s.filter (matchesFilter { p with minYear := none, maxYear := none })) := by
  refine ⟨?_, ?_, ?_, ?_, ?_, ?_, ?_, ?_⟩
  · intro X Y hmin hmax hX hY
    have hXT : truthyQ (some X) = true := by simp [truthyQ, hX]
    have hYT : truthyQ (some Y) = true := by simp [truthyQ, hY]
    rw [List.filter_filter]
    refine List.filter_congr (fun c _ => ?_)
    rw [matchesFilter_factor_price]
    have hp : priceFilter p c = (decide (X ≤ c.price) && decide (c.price ≤ Y)) := by
      simp [priceFilter, hmin, hmax, hXT, hYT]
    rw [hp]
  · intro X hmin hX hmaxF
    have hXT : truthyQ (some X) = true := by simp [truthyQ, hX]
    rw [List.filter_filter]
    refine List.filter_congr (fun c _ => ?_)
    rw [matchesFilter_factor_price]
    have hp : priceFilter p c = decide (X ≤ c.price) := by
      simp [priceFilter, hmin, hXT, hmaxF]
    rw [hp]
  · intro Y hmax hY hminF
    have hYT : truthyQ (some Y) = true := by simp [truthyQ, hY]
    rw [List.filter_filter]
    refine List.filter_congr (fun c _ => ?_)
    rw [matchesFilter_factor_price]
    have hp : priceFilter p c = decide (c.price ≤ Y) := by
      simp [priceFilter, hmax, hYT, hminF]
    rw [hp]
  · intro hminF hmaxF
    refine List.filter_congr (fun c _ => ?_)
    rw [matchesFilter_factor_price]
    have hp : priceFilter p c = true := by simp [priceFilter, hminF, hmaxF]
    rw [hp, Bool.true_and]
  · intro X Y hmin hmax hX hY
    have hXT : truthyN (some X) = true := by simp [truthyN, hX]
    have hYT : truthyN (some Y) = true := by simp [truthyN, hY]
    rw [List.filter_filter]
    refine List.filter_congr (fun c _ => ?_)
    rw [matchesFilter_factor_year]
    have hp : yearFilter p c = (decide (X ≤ c.year) && decide (c.year ≤ Y)) := by
      simp [yearFilter, hmin, hmax, hXT, hYT]
    rw [hp]
  · intro X hmin hX hmaxF
    have hXT : truthyN (some X) = true := by simp [truthyN, hX]
    rw [List.filter_filter]
    refine List.filter_congr (fun c _ => ?_)
    rw [matchesFilter_factor_year]
    have hp : yearFilter p c = decide (X ≤ c.year) := by
      simp [yearFilter, hmin, hXT, hmaxF]
    rw [hp]
  · intro Y hmax hY hminF
    have hYT : truthyN (some Y) = true := by simp [truthyN, hY]
    rw [List.filter_filter]
    refine List.filter_congr (fun c _ => ?_)
    rw [matchesFilter_factor_year]
    have hp : yearFilter p c = decide (c.year ≤ Y) := by
      simp [yearFilter, hmax, hYT, hminF]
    rw [hp]
  · intro hminF hmaxF
    refine List.filter_congr (fun c _ => ?_)
    rw [matchesFilter_factor_year]
    have hp : yearFilter p c = true := by simp [yearFilter, hminF, hmaxF]
    rw [hp, Bool.true_and]

theorem range_filters_amended_witness :
    List.filter (matchesFilter
        { baseParams with minPrice := some 100, maxPrice := some 520000 }) [carA, carB] =
      (List.filter (matchesFilter baseParams) [carA, carB]).filter
        (fun c => decide ((100 : ℚ) ≤ c.price) && decide (c.price ≤ (520000 : ℚ))) := by
  have h := (range_filters_amended [carA, carB]
    { baseParams with minPrice := some 100, maxPrice := some 520000 }).1
    100 520000 rfl rfl (by decide) (by decide)
  exact h

theorem length_filter_add_not (l : List Car) (p : Car → Bool) :
    (l.filter p).length + (l.filter (fun c => !(p c))).length = l.length := by
  induction l with
  | nil => rfl
  | cons a t ih => cases h : p a <;> simp [List.filter_cons, h] <;> omega

theorem sum_counts (keys : List String) (l : List Car)
    (hnd : keys.Nodup) (hcov : ∀ c ∈ l, c.make ∈ keys) :
    (keys.map (fun k => (l.filter (fun c => c.make == k)).length)).sum = l.length := by
  induction keys generalizing l with
  | nil =>
    have hl : l = [] := by
      cases l with
      | nil => rfl
      | cons a t => exact absurd (hcov a (List.mem_cons_self a t)) (List.not_mem_nil _)
    subst hl; rfl
  | cons k ks ih =>
    obtain ⟨hk, hnd'⟩ := List.nodup_cons.mp hnd
    have hmaps : ks.map (fun k' => (l.filter (fun c => c.make == k')).length) =
        ks.map (fun k' =>
          ((l.filter (fun c => !(c.make == k))).filter (fun c => c.make == k')).length) := by
      refine List.map_congr_left (fun k' hk' => ?_)
      have hkk' : ¬ k' = k := fun he => hk (he ▸ hk')
      rw [List.filter_filter]
      refine congrArg List.length (List.filter_congr (fun c _ => ?_))
      refine (bool_eq_iff ?_).symm
      simp only [Bool.and_eq_true, Bool.not_eq_true', beq_iff_eq, beq_eq_false_iff_ne]
      constructor
      · intro ⟨h1, _⟩; exact h1
      · intro h1; exact ⟨h1, h1 ▸ hkk'⟩
    have hsum := ih (l.filter (fun c => !(c.make == k))) hnd' (by
      intro c hc
      obtain ⟨hcl, hne⟩ := List.mem_filter.mp hc
      have := hcov c hcl
      simp only [Bool.not_eq_true', beq_eq_false_iff_ne] at hne
      cases List.mem_cons.mp this with
      | inl h => exact absurd h hne
      | inr h => exact h)
    have hpart := length_filter_add_not l (fun c => c.make == k)
    simp only [List.map_cons, List.sum_cons, hmaps, hsum]
    omega

theorem sum_over_groups (l : List Car) :
    ((groupByMake l).map (fun g => g.count)).sum = l.length := by
  unfold groupByMake
  rw [List.map_map]
  exact sum_counts _ l (List.nodup_dedup _)
    (fun c hc => List.mem_dedup.mpr (List.mem_map_of_mem _ hc))

/-- C8: over the match set `L` of active, available listings, the overview
is absent exactly when `L` is empty (never an error) and otherwise reports
`totalCars = |L|`; `topMakes` is one group per make with the group's count,
sorted by count descending and truncated to 10; and with at most 10
distinct makes the group counts sum to `totalCars`. -/
theorem carStats_contract (s : List Car) :
    (s.filter statsMatch = [] → (carStats s).overview = none)
  ∧ (∀ ov, (carStats s).overview = some ov → ov.totalCars = (s.filter statsMatch).length)
  ∧ (s.filter statsMatch ≠ [] → ∃ ov, (carStats s).overview = some ov)
  ∧ List.Sorted countGE (carStats s).topMakes
  ∧ (carStats s).topMakes.length ≤ 10
  ∧ (∀ g ∈ (carStats s).topMakes,
      g.count = ((s.filter statsMatch).filter (fun c => c.make == g.make)).length)
  ∧ (((s.filter statsMatch).map (fun c => c.make)).dedup.length ≤ 10 →
      ((carStats s).topMakes.map (fun g => g.count)).sum = (s.filter statsMatch).length) := by
  refine ⟨?_, ?_, ?_, ?_, ?_, ?_, ?_⟩
  · intro h; simp [carStats, h, overviewOf]
  · intro ov hov
    cases hm : s.filter statsMatch with
    | nil => rw [carStats] at hov; simp [hm, overviewOf] at hov
    | cons a t =>
      rw [carStats] at hov
      simp only [hm, overviewOf, Option.some.injEq] at hov
      rw [← hov]
  · intro h
    cases hm : s.filter statsMatch with
    | nil => exact absurd hm h
    | cons a t =>
      have hov : (carStats s).overview = overviewOf (a :: t) := by
        show overviewOf (s.filter statsMatch) = _
        rw [hm]
      rw [hov]
      exact ⟨_, rfl⟩
  · exact List.Pairwise.sublist (List.take_sublist _ _)
      (List.sorted_insertionSort countGE (groupByMake (s.filter statsMatch)))
  · exact List.length_take_le _ _
  · intro g hg
    have h1 : g ∈ List.insertionSort countGE (groupByMake (s.filter statsMatch)) :=
      List.mem_of_mem_take hg
    have h2 : g ∈ groupByMake (s.filter statsMatch) :=
      (List.perm_insertionSort _ _).mem_iff.mp h1
    obtain ⟨k, _, rfl⟩ := List.mem_map.mp h2
    rfl
  · intro hle
    have hlen : (List.insertionSort countGE (groupByMake (s.filter statsMatch))).length ≤ 10 := by
      rw [(List.perm_insertionSort _ _).length_eq]
      unfold groupByMake
      rw [List.length_map]
      exact hle
    have hteq : (carStats s).topMakes =
        List.take 10 (List.insertionSort countGE (groupByMake (s.filter statsMatch))) := rfl
    rw [hteq, List.take_of_length_le hlen]
    rw [((List.perm_insertionSort countGE (groupByMake (s.filter statsMatch))).map
      (fun g => g.count)).sum_eq]
    exact sum_over_groups _

theorem carStats_contract_witness :
    (carStats ([] : List Car)).overview = none
  ∧ ((carStats [carA, carB, carC]).topMakes.map (fun g => g.count)).sum =
      ([carA, carB, carC].filter statsMatch).length :=
  ⟨(carStats_contract []).1 rfl,
   (carStats_contract [carA, carB, carC]).2.2.2.2.2.2 (by decide)⟩

/-- C7 counterexample: updating the listing with id 2 with a body whose
make is `"mARUTI suzuki"` persists that make verbatim — the update path
(`findByIdAndUpdate`) never runs the `pre('save')` capitalization hook —
and the stored value is not in first-upper-rest-lower form. -/
theorem capitalization_counterexample :
    (findCar (updateCar [carB] user1 2 input1).2 2).map (fun c => c.make) =
      some "mARUTI suzuki"
  ∧ normalizeCap "mARUTI suzuki" ≠ "mARUTI suzuki" := by
  constructor <;> decide

/-- C7 amended: make/model are capitalization-normalized on the create
(save) path only — the persisted creation stores
`normalizeCap (trim ...)` — while the update path persists the trimmed
values exactly as submitted, with no capitalization normalization. -/
theorem capitalization_on_create_only (store : List Car) (u : AuthUser) (body : CarInput)
    (newId now id : Nat) :
    (createCar store u body newId now).1.make = normalizeCap (trimStr body.make)
  ∧ (createCar store u body newId now).1.model = normalizeCap (trimStr body.model)
  ∧ (∀ c, findCar store id = some c →
      (updateCar store u id body).1 = .ok (applyUpdate c body)
      ∧ findCar (updateCar store u id body).2 id = some (applyUpdate c body)
      ∧ (applyUpdate c body).make = trimStr body.make
      ∧ (applyUpdate c body).model = trimStr body.model) := by
  refine ⟨rfl, rfl, fun c hc => ?_⟩
  have hres : updateCar store u id body =
      (.ok (applyUpdate c body),
        store.map (fun x => if x.id == id then applyUpdate x body else x)) := by
    simp [updateCar, hc]
  rw [hres]
  refine ⟨rfl, ?_, rfl, rfl⟩
  rw [findCar_map_of_id store id (fun x => applyUpdate x body) (fun _ => rfl), hc]
  rfl

theorem capitalization_on_create_only_witness :
    (createCar [] user1 input1 5 400).1.make = normalizeCap (trimStr input1.make)
  ∧ (applyUpdate carB input1).make = trimStr input1.make :=
  ⟨(capitalization_on_create_only [] user1 input1 5 400 2).1,
   ((capitalization_on_create_only [carB] user1 input1 5 400 2).2.2 carB
      (by decide)).2.2.1⟩

/-- C10: unlike create, update takes the seller email from the patch: the
returned and persisted document carry the patch's (normalized) seller
email for every caller identity, so when that email differs from the
caller's, the persisted attribution is not the caller's email. -/
theorem update_seller_from_patch (store : List Car) (u : AuthUser) (id : Nat)
    (body : CarInput) (c : Car) (e : String)
    (hfind : findCar store id = some c) (he : body.sellerEmail = some e)
    (hnorm : lowerStr (trimStr e) = e) :
    (updateCar store u id body).1 = .ok (applyUpdate c body)
  ∧ (applyUpdate c body).seller.email = some e
  ∧ findCar (updateCar store u id body).2 id = some (applyUpdate c body)
  ∧ (∀ u', updateCar store u' id body = updateCar store u id body)
  ∧ (e ≠ u.email → (applyUpdate c body).seller.email ≠ some u.email) := by
  have hmail : (applyUpdate c body).seller.email = some e := by
    simp [applyUpdate, emailSetter, he, hnorm]
  refine ⟨?_, hmail, ?_, fun u' => rfl, ?_⟩
  · simp [updateCar, hfind]
  · have hres : (updateCar store u id body).2 =
        store.map (fun x => if x.id == id then applyUpdate x body else x) := by
      simp [updateCar, hfind]
    rw [hres, findCar_map_of_id store id (fun x => applyUpdate x body) (fun _ => rfl), hfind]
    rfl
  · intro hne hcontra
    rw [hmail] at hcontra
    exact hne (Option.some.injEq _ _ ▸ hcontra)

theorem update_seller_from_patch_witness :
    (applyUpdate carB input1).seller.email = some "mallory@example.com"
  ∧ (applyUpdate carB input1).seller.email ≠ some user1.email :=
  ⟨(update_seller_from_patch [carB] user1 2 input1 carB "mallory@example.com"
      (by decide) rfl (by decide)).2.1,
   (update_seller_from_patch [carB] user1 2 input1 carB "mallory@example.com"
      (by decide) rfl (by decide)).2.2.2.2 (by decide)⟩

end CarApi
